import Mathlib

/-!
# Verification of `rl_utils/plotting/auto_table.py`

A shallow embedding of the function `plot_table` from
`src/rl_utils/plotting/auto_table.py`, together with proofs settling the
frozen claims about it.

Modelling conventions:

* A dataframe cell holds a Python scalar: a float (modelled by `ℚ`), the
  IEEE NaN, or a string.  A dataframe is a list of records, each record an
  association list from column names to cells (first binding wins, as the
  column of a rectangular frame).
* Machine floats are modelled by `ℚ`; `math.sqrt` inside `pandas.Series.std`
  is modelled by an uninterpreted rational function `sqrtF` carried in the
  configuration.  No claim depends on the numeric value of a square root,
  only on where the standard deviation is used.
* Fallible pandas operations are modelled with `Option`: `none` is an
  uncaught Python exception.  In particular multiplying a string cell by the
  float `value_scaling` (line 95 of the source) raises `TypeError` in
  pandas, which the embedding renders as `none`.
* `print` side effects are modelled by returning the list of printed
  diagnostic lines alongside the result string.
-/

namespace AutoTable

/-- A scalar cell of the dataframe: a float (`num`, modelled by `ℚ`), the
IEEE NaN (`nan`), or a Python string (`str`). -/
inductive PyVal where
  | num (q : ℚ)
  | nan
  | str (s : String)
deriving DecidableEq, Repr

/-- One row of the dataframe: column name to cell, first binding wins. -/
abbrev Record := List (String × PyVal)

/-- A dataframe: the list of its records (the index is irrelevant, per the
source docstring). -/
abbrev Df := List Record

/-- A pandas `Series`: index value to entry. -/
abbrev Series := List (PyVal × PyVal)

/-- The `rows` dictionary of the source (line 106): row-group key to the
pair `(df_avg_y, df_std_y)`. -/
abbrev Rows := List (PyVal × Series × Series)

/-- Field lookup in a record, `none` when the column is absent. -/
def getField (rec : Record) (k : String) : Option PyVal :=
  (rec.find? (fun p => p.1 == k)).map (fun p => p.2)

/-- Field lookup defaulting to NaN.  (pandas raises `KeyError` on a missing
column; every claim concerns frames that carry the referenced columns, and
a NaN key or value is dropped/propagated the same way a missing one would
never arise.) -/
def getF (rec : Record) (k : String) : PyVal :=
  (getField rec k).getD .nan

def isNan : PyVal → Bool
  | .nan => true
  | _ => false

def isStr : PyVal → Bool
  | .str _ => true
  | _ => false

/-- The float entries of a list of cells, NaNs and (impossible in the
reachable paths) strings skipped — `skipna=True` pandas aggregation. -/
def ratsOf : List PyVal → List ℚ
  | [] => []
  | .num q :: t => q :: ratsOf t
  | _ :: t => ratsOf t

/-- `pandas.Series.mean()` (skipna): NaN on an all-NaN group. -/
def meanT (xs : List PyVal) : PyVal :=
  let ns := ratsOf xs
  if ns.isEmpty then .nan else .num (ns.sum / ns.length)

/-- Sample variance (`ddof=1`) of a list of floats, the formula of
`pandas.Series.std`. -/
def sampleVar (ns : List ℚ) : ℚ :=
  ((ns.map (fun x => (x - ns.sum / ns.length) ^ 2)).sum) / ((ns.length : ℚ) - 1)

/-- `pandas.Series.std()` (skipna, `ddof=1`): NaN when fewer than two
numeric entries, else the square root of the sample variance. -/
def stdT (sqrtF : ℚ → ℚ) (xs : List PyVal) : PyVal :=
  let ns := ratsOf xs
  if ns.length ≤ 1 then .nan else .num (sqrtF (sampleVar ns))

/-- Multiplication of a float cell by a float scalar, NaN propagating
(used for `df_std_y * error_scaling`; the string case is unreachable
there). -/
def mulNum (v : PyVal) (c : ℚ) : PyVal :=
  match v with
  | .num q => .num (q * c)
  | .nan => .nan
  | .str s => .str s

/-- Elementwise scalar multiplication of a series. -/
def mulSeries (s : Series) (c : ℚ) : Series :=
  s.map (fun p => (p.1, mulNum p.2 c))

/-- `Series.hasnans`. -/
def hasNans (s : Series) : Bool :=
  s.any (fun p => isNan p.2)

/-- Series lookup (`.loc[key]` / dict lookup), `none` on a missing key. -/
def lookupS (s : Series) (k : PyVal) : Option PyVal :=
  (s.find? (fun p => p.1 == k)).map (fun p => p.2)

/-- A total order used to model the ascending sort of pandas group keys.
(Python cannot compare a number with a string; group order is irrelevant to
every claim, so the order is extended totally.) -/
def pvLe : PyVal → PyVal → Bool
  | .num a, .num b => a ≤ b
  | .num _, .str _ => true
  | .str _, .num _ => false
  | .str a, .str b => a ≤ b
  | .nan, _ => true
  | _, .nan => false

def insertPv (a : PyVal) : List PyVal → List PyVal
  | [] => [a]
  | b :: t => if pvLe a b then a :: b :: t else b :: insertPv a t

def sortPv : List PyVal → List PyVal
  | [] => []
  | a :: t => insertPv a (sortPv t)

/-- The distinct group keys of `df.groupby(k)`: NaN keys dropped, sorted
ascending (`sort=True`, `dropna=True` pandas defaults). -/
def keysOf (df : Df) (k : String) : List PyVal :=
  sortPv (((df.map (fun rec => getF rec k)).filter (fun v => !isNan v)).dedup)

/-- `df.groupby(k)`: each group key with the subframe of records carrying
it, record order preserved within a group. -/
def groupBy (df : Df) (k : String) : List (PyVal × Df) :=
  (keysOf df k).map (fun v => (v, df.filter (fun rec => getF rec k == v)))

/-- The column `k` of a subframe, as the list of its cells. -/
def colVals (g : Df) (k : String) : List PyVal :=
  g.map (fun rec => getF rec k)

/-- The keyword arguments of `plot_table` (source lines 12-50), with the
source's default values.  `write_to` is omitted: it only chooses between
printing and writing the returned string.  `missing_fill_value` has no
default here because its source default `MISSING_VALUE` lives in
`rl_utils/plotting/utils.py`, outside the given sources.  `sqrtF` models
the machine square root used inside `pandas.Series.std`. -/
structure Cfg where
  col_key : String
  row_key : String
  cell_key : String
  col_order : List String
  row_order : List String
  renames : List (String × String) := []
  error_scaling : ℚ := 1
  n_decimals : Nat := 2
  missing_fill_value : ℚ
  error_fill_value : ℚ := 3444 / 10000
  get_row_highlights : Option (String → Series → List String) := none
  get_col_highlights : Option (String → Series → List String) := none
  make_col_header : Option (Nat → String) := none
  x_label : String := ""
  y_label : String := ""
  skip_toprule : Bool := false
  include_err : Bool := true
  err_key : Option String := none
  add_tabular : Bool := true
  add_botrule : Bool := false
  name_bold_fn : Option (String → String) := none
  show_row_labels : Bool := true
  show_col_labels : Bool := true
  compute_err_fn : Option (List (PyVal × List PyVal) → Series) := none
  value_scaling : ℚ := 1
  midrule_formatting : String := "\\midrule\n"
  botrule_formatting : String := "\\bottomrule"
  text_columns : List (String × List (String × String)) := []
  alternating_color_rows : Bool := false
  custom_cell_format_fn : Option (PyVal → PyVal → String → String → Option (List String) → String) := none
  sqrtF : ℚ → ℚ

/-! ## Line 95: `df[cell_key] = df[cell_key] * value_scaling`

This statement mutates the caller's dataframe in place.  `value_scaling`
is a Python float (annotation and default `1.0`), and multiplying a
string cell by a float raises `TypeError` in pandas, so the operation
fails whenever the value column holds a string (in particular the
`"missing"`/`"error"` sentinels, which are only replaced afterwards on
lines 103-104). -/

/-- Scaling one cell; the string case is the spot where Python raises. -/
def scaleCellT (c : ℚ) : PyVal → PyVal
  | .num q => .num (q * c)
  | .nan => .nan
  | .str s => .str s

/-- Whether scaling the column `k` of `rec` succeeds: the column must be
present (else `KeyError`) and not hold a string (else `TypeError`, since
`value_scaling` is a float). -/
def recScaleOk (k : String) (rec : Record) : Bool :=
  match getField rec k with
  | some v => !isStr v
  | none => false

/-- Scaling the bindings of column `k` in one record. -/
def scaleRecT (k : String) (c : ℚ) (rec : Record) : Record :=
  rec.map (fun p => if p.1 == k then (p.1, scaleCellT c p.2) else p)

/-- `df[cell_key] = df[cell_key] * value_scaling` (line 95), `none` on the
`TypeError`/`KeyError` described above. -/
def scaleCol (df : Df) (k : String) (c : ℚ) : Option Df :=
  if df.all (recScaleOk k) then some (df.map (scaleRecT k c)) else none

/-- `df.replace(target, repl)` on one cell (exact string match). -/
def replaceVal (target : String) (repl : PyVal) (v : PyVal) : PyVal :=
  if v == .str target then repl else v

/-- `df.replace(target, repl)` (lines 103-104): every cell of every column
equal to the string `target` becomes `repl`. -/
def replaceAll (df : Df) (target : String) (repl : PyVal) : Df :=
  df.map (fun rec => rec.map (fun p => (p.1, replaceVal target repl p.2)))

/-! ## Lines 106-122: the aggregation loop building `rows` -/

/-- Whether the aggregations of one row group succeed: pandas raises when
an aggregated column holds a string (object-dtype `mean`/`std` over
strings).  When `err_key` is set, `grouped[err_key].mean()` is evaluated
unconditionally (line 114), so the error column is included. -/
def rowAggOk (cfg : Cfg) (g : PyVal × Df) : Bool :=
  (groupBy g.2 cfg.col_key).all (fun cg =>
    (colVals cg.2 cfg.cell_key).all (fun v => !isStr v) &&
    (match cfg.err_key with
     | some ek => (colVals cg.2 ek).all (fun v => !isStr v)
     | none => true))

/-- The body of the loop on lines 107-122 for one row group: per-column
mean, std scaled by `error_scaling`, then the error-column override
(selected only when the per-column error means have no NaN), then
`compute_err_fn` when no error column was selected. -/
def rowAgg (cfg : Cfg) (g : PyVal × Df) : PyVal × Series × Series :=
  let grouped := groupBy g.2 cfg.col_key
  let df_avg_y : Series := grouped.map (fun cg => (cg.1, meanT (colVals cg.2 cfg.cell_key)))
  let df_std_y : Series :=
    mulSeries (grouped.map (fun cg => (cg.1, stdT cfg.sqrtF (colVals cg.2 cfg.cell_key))))
      cfg.error_scaling
  let sel : Series × Bool :=
    match cfg.err_key with
    | some ek =>
      let err : Series := grouped.map (fun cg => (cg.1, meanT (colVals cg.2 ek)))
      if hasNans err then (df_std_y, false) else (err, true)
    | none => (df_std_y, false)
  let df_std_y :=
    if !sel.2 then
      match cfg.compute_err_fn with
      | some f => f (grouped.map (fun cg => (cg.1, colVals cg.2 cfg.cell_key)))
      | none => sel.1
    else sel.1
  (g.1, df_avg_y, df_std_y)

/-- Lines 106-122: the `rows` dictionary, `none` when some aggregation
raises. -/
def buildRows (cfg : Cfg) (df : Df) : Option Rows :=
  if (groupBy df cfg.row_key).all (rowAggOk cfg) then
    some ((groupBy df cfg.row_key).map (rowAgg cfg))
  else none

/-! ## Lines 124-216: rendering the header and the data rows -/

/-- `clean_text` (line 129): `s.replace("%", "\\%").replace("_", " ")`.
Both patterns are single characters and neither replacement contains the
other pattern, so the composite of the two replacements is the single
per-character expansion below. -/
def cleanChars : List Char → List Char
  | [] => []
  | '%' :: t => '\\' :: '%' :: cleanChars t
  | '_' :: t => ' ' :: cleanChars t
  | ch :: t => ch :: cleanChars t

def clean_text (s : String) : String :=
  String.mk (cleanChars s.data)

/-- The decimal digit characters. -/
def digitChar : Nat → Char
  | 0 => '0'
  | 1 => '1'
  | 2 => '2'
  | 3 => '3'
  | 4 => '4'
  | 5 => '5'
  | 6 => '6'
  | 7 => '7'
  | 8 => '8'
  | _ => '9'

/-- Decimal digits of a natural number, most significant first; structural
recursion on a fuel bound so the kernel can evaluate it. -/
def natDigitsAux : Nat → Nat → List Char → List Char
  | 0, _, acc => acc
  | fuel + 1, n, acc =>
    if n < 10 then digitChar n :: acc
    else natDigitsAux fuel (n / 10) (digitChar (n % 10) :: acc)

/-- Python `str(n)` for a natural number. -/
def natToString (n : Nat) : String :=
  String.mk (natDigitsAux (n + 1) n [])

/-- `renames.get(k, k)` (display rename with fallback). -/
def renameOf (renames : List (String × String)) (k : String) : String :=
  (((renames.find? (fun p => p.1 == k)).map (fun p => p.2)).getD k)

/-- Lines 133-138: the column title row. -/
def headerLine (cfg : Cfg) : String :=
  String.intercalate " & "
    ((if cfg.show_row_labels then [""] else []) ++
      cfg.col_order.map (fun col_k =>
        "\\textbf\x7b" ++ clean_text (renameOf cfg.renames col_k) ++ "\x7d"))

/-- Lines 148-152: the row label cell. -/
def labelCell (cfg : Cfg) (row_k : String) : String :=
  match cfg.name_bold_fn with
  | none => "\\textbf\x7b" ++ clean_text (renameOf cfg.renames row_k) ++ "\x7d"
  | some f => f (clean_text (renameOf cfg.renames row_k))

/-- Nearest integer with ties to even, on `ℚ`. -/
def nearestEven (x : ℚ) : ℤ :=
  let f := x.floor
  let r := x - (f : ℚ)
  if r < 1 / 2 then f
  else if 1 / 2 < r then f + 1
  else if f % 2 = 0 then f else f + 1

/-- Left-pad with zeros to `nd` digits. -/
def padZeros (nd : Nat) (s : String) : String :=
  String.mk (List.replicate (nd - s.length) '0') ++ s

/-- Python `"%.{nd}f" % q`, modelled on the exact rational value
(round-half-even; machine floats only differ on representation noise that
no claim depends on). -/
def fmtFixed (nd : Nat) (q : ℚ) : String :=
  let m := nearestEven (q * (10 : ℚ) ^ nd)
  let a := m.natAbs
  let ip := a / 10 ^ nd
  let fp := a % 10 ^ nd
  (if m < 0 then "-" else "") ++ natToString ip ++
    (if nd = 0 then "" else "." ++ padZeros nd (natToString fp))

/-- `%f`-formatting of a cell value; NaN prints as `nan`. -/
def fmtVal (nd : Nat) : PyVal → String
  | .num q => fmtFixed nd q
  | .nan => "nan"
  | .str s => s

/-- Lines 161-184: the highlight selection, `get_row_highlights` taking
precedence over `get_col_highlights`.  For the column variant the series
passed to the callback collects, over the row groups in `rows` order, the
mean of each row at that column (the `all_col_values` dict). -/
def selColsFor (cfg : Cfg) (rows : Rows) (row_k : String) (row_y : Series) :
    Option (List String) :=
  match cfg.get_row_highlights with
  | some f => some (f row_k row_y)
  | none =>
    match cfg.get_col_highlights with
    | some g =>
      some (cfg.col_order.filterMap (fun col =>
        let col_values : Series :=
          rows.filterMap (fun rr => (lookupS rr.2.1 (.str col)).map (fun v => (rr.1, v)))
        if (g col col_values).contains row_k then some col else none))
    | none => none

/-- Lines 186-210: the text of one data cell.  (`row_std.loc[col_k]` can
only miss when a `compute_err_fn` returns a series on a different index,
where pandas would raise; the claims never exercise that, and the
embedding reads NaN.) -/
def cellText (cfg : Cfg) (sel_cols : Option (List String)) (row_k col_k : String)
    (row_y row_std : Series) : String :=
  match (cfg.text_columns.find? (fun p => p.1 == col_k)).map (fun p => p.2) with
  | some m => (((m.find? (fun p => p.1 == row_k)).map (fun p => p.2)).getD "-")
  | none =>
    match lookupS row_y (.str col_k) with
    | none => "-"
    | some val =>
      let std := (lookupS row_std (.str col_k)).getD .nan
      if val == .num (cfg.missing_fill_value * cfg.value_scaling) then "-"
      else if val == .num cfg.error_fill_value then "E"
      else
        match cfg.custom_cell_format_fn with
        | none =>
          let err :=
            if cfg.include_err && !isNan std then
              "\x7b\\scriptsize " ++ ("$ \\pm$ " ++ fmtVal cfg.n_decimals std ++ " ") ++ " \x7d"
            else ""
          let txt := " " ++ fmtVal cfg.n_decimals val ++ " " ++ err
          match sel_cols with
          | some sc => if sc.contains col_k then "\\textbf\x7b " ++ txt ++ " \x7d" else txt
          | none => txt
        | some f => f val std col_k row_k sel_cols

/-- `row_k not in rows` / `rows[row_k]` (lines 154-159): dictionary lookup,
the string key compared against the group keys. -/
def findRow (rows : Rows) (k : String) : Option (Series × Series) :=
  (rows.find? (fun g => g.1 == .str k)).map (fun g => g.2)

/-- Lines 140-216: the row loop.  Returns the emitted lines, the printed
`Could not find` diagnostics, and the final `row_index`.  The counter is
reset to 0 by an `hline` entry, left unchanged by a missing row key, and
incremented by a rendered data row (which is colored when the incremented
counter is even and `alternating_color_rows` is set). -/
def renderRowsAux (cfg : Cfg) (rows : Rows) :
    List String → Nat → List String × List String × Nat
  | [], row_index => ([], [], row_index)
  | row_k :: rest, row_index =>
    if row_k == "hline" then
      let r := renderRowsAux cfg rows rest 0
      ("\\hline" :: r.1, r.2.1, r.2.2)
    else
      let row_str0 : List String := if cfg.show_row_labels then [labelCell cfg row_k] else []
      match findRow rows row_k with
      | none =>
        let line := String.intercalate " & " (row_str0 ++ cfg.col_order.map (fun _ => ""))
        let r := renderRowsAux cfg rows rest row_index
        (line :: r.1, ("Could not find  " ++ row_k) :: r.2.1, r.2.2)
      | some rs =>
        let sel_cols := selColsFor cfg rows row_k rs.1
        let cells := cfg.col_order.map (fun col_k => cellText cfg sel_cols row_k col_k rs.1 rs.2)
        let line0 := String.intercalate " & " (row_str0 ++ cells)
        let line :=
          if (row_index + 1) % 2 == 0 && cfg.alternating_color_rows then
            "\\rowcolor\x7bGray\x7d " ++ line0
          else line0
        let r := renderRowsAux cfg rows rest (row_index + 1)
        (line :: r.1, r.2.1, r.2.2)

/-! ## Lines 218-287: assembling the final string -/

def isPrefixOfChars : List Char → List Char → Bool
  | [], _ => true
  | _ :: _, [] => false
  | a :: pt, b :: st => a == b && isPrefixOfChars pt st

def containsChars (pat : List Char) : List Char → Bool
  | [] => isPrefixOfChars pat []
  | b :: t => isPrefixOfChars pat (b :: t) || containsChars pat t

/-- `pat in s` (Python substring test). -/
def containsSub (pat s : String) : Bool :=
  containsChars pat.data s.data

/-- The loop on lines 257-268: join the row lines, the last line getting a
separator only when `add_botrule`; a line containing `"hline"` as a
substring is followed by a bare newline instead of `" \\\\\n"`. -/
def joinRowLines (add_botrule : Bool) : List String → String
  | [] => ""
  | [l] =>
    if add_botrule then
      l ++ (if containsSub "hline" l then "\n" else " \\\\\n")
    else l
  | l :: l2 :: rest =>
    (l ++ (if containsSub "hline" l then "\n" else " \\\\\n")) ++
      joinRowLines add_botrule (l2 :: rest)

/-- Lines 218-278: wrap the header and body lines into the final block.
(`row_lines[0] = ...` on line 230 would raise on an empty list; `all_s`
always starts with the header line, and the claims never pair a `y_label`
with an empty body.) -/
def assemble (cfg : Cfg) (all_s : List String) : String :=
  let n_columns := cfg.col_order.length + (if cfg.show_row_labels then 1 else 0)
  let col_header_s :=
    match cfg.make_col_header with
    | some f => f n_columns
    | none => String.mk (List.replicate n_columns 'c')
  let row_sep := " \\\\\n"
  let parts :=
    if cfg.y_label == "" then
      (col_header_s, "", "\\toprule\n", cfg.midrule_formatting, cfg.botrule_formatting,
        all_s.drop 1)
    else
      let midrule := "\\cmidrule\x7b2-" ++ natToString (n_columns + 1) ++ "\x7d\n"
      let row_lines := (all_s.drop 1).map (fun x => " & " ++ x)
      let row_lines := row_lines.modifyHead (fun x =>
        ("\\multirow\x7b4\x7d\x7b1em\x7d\x7b\\rotatebox\x7b90\x7d\x7b" ++ cfg.y_label ++ "\x7d\x7d") ++ x)
      ("c" ++ col_header_s, " & ", "", midrule, midrule, row_lines)
  let (col_header_s, start_of_line, toprule, midrule, botrule, row_lines) := parts
  let toprule := if cfg.skip_toprule then "" else toprule
  let toprule :=
    if cfg.x_label == "" then toprule
    else toprule ++ ("& \\multicolumn\x7b" ++ natToString n_columns ++ "\x7d\x7bc\x7d\x7b" ++
      cfg.x_label ++ "\x7d") ++ row_sep
  let ret_s :=
    if cfg.add_tabular then
      "\\begin\x7btabular\x7d\x7b" ++ col_header_s ++ "\x7d\n" ++ toprule
    else ""
  let ret_s :=
    if cfg.show_col_labels then ret_s ++ start_of_line ++ all_s.headD "" ++ row_sep ++ midrule
    else ret_s
  let ret_s := ret_s ++ joinRowLines cfg.add_botrule row_lines
  let ret_s := if cfg.add_tabular then ret_s ++ botrule ++ "\n\\end\x7btabular\x7d\n" else ret_s
  if cfg.add_botrule then ret_s ++ botrule else ret_s

/-- `plot_table` (lines 12-287).  Returns the caller's dataframe as it is
left after the in-place mutation of line 95, the returned string, and the
printed `Could not find` diagnostics; `none` models an uncaught Python
exception. -/
def plot_table (df : Df) (cfg : Cfg) : Option (Df × String × List String) := do
  let df1 ← scaleCol df cfg.cell_key cfg.value_scaling
  let df2 := replaceAll (replaceAll df1 "missing" (.num cfg.missing_fill_value))
    "error" (.num cfg.error_fill_value)
  let rows ← buildRows cfg df2
  let body := renderRowsAux cfg rows cfg.row_order 0
  let out := assemble cfg (headerLine cfg :: body.1)
  some (df1, out, body.2.1)

/-! ## Specification-side definitions

These follow the words of the specification, to be compared with the
source-side pipeline above. -/

/-- The records of `df` matching a (row-group, column-group) pair — the
spec's "records matching that pair". -/
def matchingRecs (df : Df) (cfg : Cfg) (r c : PyVal) : Df :=
  df.filter (fun rec => getF rec cfg.row_key == r && getF rec cfg.col_key == c)

/-- The spec's "arithmetic mean". -/
def arithMean (ns : List ℚ) : ℚ := ns.sum / ns.length

/-- The spec's "sample standard deviation" (undefined — NaN — for fewer
than two values), `sqrtF` standing for the machine square root. -/
def sampleStd (sqrtF : ℚ → ℚ) (ns : List ℚ) : PyVal :=
  if ns.length ≤ 1 then .nan else .num (sqrtF (sampleVar ns))

/-- The spec's "purely numeric value column": each record carries a float
in column `k`. -/
def numericCol (df : Df) (k : String) : Bool :=
  df.all (fun rec =>
    match getField rec k with
    | some (.num _) => true
    | _ => false)

/-- Column `k` holds a float or NaN in each record (a numeric dtype). -/
def numOrNanCol (df : Df) (k : String) : Bool :=
  df.all (fun rec =>
    match getField rec k with
    | some (.num _) => true
    | some .nan => true
    | _ => false)

/-- The subframe of one row group (the spec's "records of the row
group"). -/
def rowRecs (df : Df) (cfg : Cfg) (r : PyVal) : Df :=
  df.filter (fun rec => getF rec cfg.row_key == r)

/-- The per-column means of the error column within one row group. -/
def errMeans (df : Df) (cfg : Cfg) (ek : String) (r : PyVal) : Series :=
  (groupBy (rowRecs df cfg r) cfg.col_key).map (fun cg => (cg.1, meanT (colVals cg.2 ek)))

/-! ## Concrete instances for the witnesses and counterexamples

All of them use a frame with row key column `r`, column key column `c`,
value column `v` (and error column `e` where relevant); the machine square
root is instantiated with the identity, whose value is only ever read on
perfect squares in these instances or not at all. -/

def cfgC1w : Cfg where
  col_key := "c"
  row_key := "r"
  cell_key := "v"
  col_order := ["X"]
  row_order := ["A"]
  missing_fill_value := 1 / 4
  sqrtF := fun q => q

def dfC1w : Df :=
  [[("r", .str "A"), ("c", .str "X"), ("v", .num 1)],
   [("r", .str "A"), ("c", .str "X"), ("v", .num 3)]]

def rgsC1w : Rows := [(.str "A", [(.str "X", .num 2)], [(.str "X", .num 2)])]

def cfgC2x : Cfg where
  col_key := "c"
  row_key := "r"
  cell_key := "v"
  col_order := ["X"]
  row_order := ["A"]
  missing_fill_value := 1 / 4
  value_scaling := 2
  sqrtF := fun q => q

def dfC2x : Df := [[("r", .str "A"), ("c", .str "X"), ("v", .num 1)]]

def cfgC2w : Cfg where
  col_key := "c"
  row_key := "r"
  cell_key := "v"
  col_order := ["X"]
  row_order := ["A"]
  missing_fill_value := 1 / 4
  sqrtF := fun q => q

def dfC2w : Df := [[("r", .str "A"), ("c", .str "X"), ("v", .num 1)]]

def cfgC3x : Cfg where
  col_key := "c"
  row_key := "r"
  cell_key := "v"
  col_order := ["X"]
  row_order := ["A"]
  missing_fill_value := 1 / 4
  value_scaling := 2
  sqrtF := fun q => q

def dfC3x : Df := [[("r", .str "A"), ("c", .str "X"), ("v", .num 1)]]

/-- The caller's frame after `plot_table dfC3x cfgC3x`: the value cell was
scaled in place from 1 to 2. -/
def dfC3x1 : Df := [[("r", .str "A"), ("c", .str "X"), ("v", .num 2)]]

/-- The block `plot_table dfC3x cfgC3x` returns. -/
def outC3x : String :=
  "\\begin\x7btabular\x7d\x7bcc\x7d\n\\toprule\n & \\textbf\x7bX\x7d \\\\\n\\midrule\n\\textbf\x7bA\x7d &  2.00 \\bottomrule\n\\end\x7btabular\x7d\n"

def cfgC4w : Cfg where
  col_key := "c"
  row_key := "r"
  cell_key := "v"
  col_order := ["X"]
  row_order := ["A"]
  missing_fill_value := 1 / 4
  sqrtF := fun q => q

def dfC4w : Df := [[("r", .str "A"), ("c", .str "X"), ("v", .str "missing")]]

def cfgC5w : Cfg where
  col_key := "c"
  row_key := "r"
  cell_key := "v"
  col_order := ["X"]
  row_order := ["A"]
  missing_fill_value := 1 / 4
  sqrtF := fun q => q

def dfC5w : Df := [[("r", .str "A"), ("c", .str "X"), ("v", .str "error")]]

def cfgC6w : Cfg where
  col_key := "c"
  row_key := "r"
  cell_key := "v"
  col_order := ["X"]
  row_order := ["A"]
  missing_fill_value := 1 / 4
  err_key := some "e"
  compute_err_fn := some (fun _ => [(.str "X", .num 99)])
  sqrtF := fun q => q

def dfC6w : Df :=
  [[("r", .str "A"), ("c", .str "X"), ("v", .num 1), ("e", .num 5)],
   [("r", .str "A"), ("c", .str "X"), ("v", .num 3), ("e", .num 7)]]

def rgsC6w : Rows := [(.str "A", [(.str "X", .num 2)], [(.str "X", .num 6)])]

def cfgC8w : Cfg where
  col_key := "c"
  row_key := "r"
  cell_key := "v"
  col_order := ["X", "Y"]
  row_order := ["B"]
  missing_fill_value := 1 / 4
  sqrtF := fun q => q

def cfgC10x : Cfg where
  col_key := "c"
  row_key := "r"
  cell_key := "v"
  col_order := ["X"]
  row_order := ["A"]
  missing_fill_value := 1 / 4
  err_key := some "e"
  compute_err_fn := some (fun _ => [(.str "X", .num 42)])
  sqrtF := fun q => q

/-- Row group `A` whose error column holds a NaN — but whose (A, X)
subgroup still has a numeric error entry, so the per-column mean skips the
NaN. -/
def dfC10x : Df :=
  [[("r", .str "A"), ("c", .str "X"), ("v", .num 1), ("e", .num 1)],
   [("r", .str "A"), ("c", .str "X"), ("v", .num 3), ("e", .nan)]]

def cfgC10w : Cfg where
  col_key := "c"
  row_key := "r"
  cell_key := "v"
  col_order := ["X"]
  row_order := ["A"]
  missing_fill_value := 1 / 4
  err_key := some "e"
  sqrtF := fun q => q

/-- Row group `A` whose (A, X) subgroup has only NaN error entries: the
per-column error mean is NaN and the fallback triggers. -/
def dfC10w : Df :=
  [[("r", .str "A"), ("c", .str "X"), ("v", .num 1), ("e", .nan)],
   [("r", .str "A"), ("c", .str "X"), ("v", .num 3), ("e", .nan)]]

def rgsC10w : Rows := [(.str "A", [(.str "X", .num 2)], [(.str "X", .num 2)])]

/-! ## Helper lemmas -/

theorem mem_insertPv {a b : PyVal} {l : List PyVal} :
    b ∈ insertPv a l ↔ b = a ∨ b ∈ l := by
  induction l with
  | nil => simp [insertPv]
  | cons x t ih =>
    by_cases h : pvLe a x = true
    · simp [insertPv, h]
    · simp only [insertPv, h]
      simp [ih]
      tauto

theorem mem_sortPv {b : PyVal} {l : List PyVal} : b ∈ sortPv l ↔ b ∈ l := by
  induction l with
  | nil => simp [sortPv]
  | cons x t ih => simp [sortPv, mem_insertPv, ih]

theorem mem_keysOf {c : PyVal} {df : Df} {k : String} :
    c ∈ keysOf df k ↔ (isNan c = false ∧ ∃ rec ∈ df, getF rec k = c) := by
  unfold keysOf
  rw [mem_sortPv, List.mem_dedup, List.mem_filter]
  simp only [List.mem_map, Bool.not_eq_true']
  constructor
  · rintro ⟨⟨rec, hrec, rfl⟩, hn⟩
    exact ⟨hn, rec, hrec, rfl⟩
  · rintro ⟨hn, rec, hrec, rfl⟩
    exact ⟨⟨rec, hrec, rfl⟩, hn⟩

theorem find_pair_map {α : Type} (l : List PyVal) (f : PyVal → α) (c : PyVal)
    (hc : c ∈ l) :
    (l.map (fun v => (v, f v))).find? (fun p => p.1 == c) = some (c, f c) := by
  induction l with
  | nil => cases hc
  | cons x t ih =>
    by_cases hx : x = c
    · subst hx
      simp [List.find?_cons]
    · have hxc : (x == c) = false := beq_eq_false_iff_ne.mpr hx
      have hct : c ∈ t := by
        cases List.mem_cons.mp hc with
        | inl h => exact absurd h.symm hx
        | inr h => exact h
      simp [List.find?_cons, hxc, ih hct]

theorem lookupS_groupMap (df : Df) (k : String) (f : Df → PyVal) (c : PyVal)
    (hc : c ∈ keysOf df k) :
    lookupS ((groupBy df k).map (fun cg => (cg.1, f cg.2))) c
      = some (f (df.filter (fun rec => getF rec k == c))) := by
  unfold groupBy lookupS
  rw [List.map_map]
  have h := find_pair_map (keysOf df k)
      (fun v => f (df.filter (fun rec => getF rec k == v))) c hc
  have hcomp : ((fun cg : PyVal × Df => (cg.1, f cg.2)) ∘
      fun v => (v, List.filter (fun rec => getF rec k == v) df))
      = fun v => (v, f (List.filter (fun rec => getF rec k == v) df)) := rfl
  rw [hcomp, h]
  rfl

theorem buildRows_eq_some {cfg : Cfg} {df : Df} {rgs : Rows}
    (h : buildRows cfg df = some rgs) :
    rgs = (groupBy df cfg.row_key).map (rowAgg cfg) := by
  unfold buildRows at h
  split at h
  · exact (Option.some.injEq _ _ ▸ h).symm
  · cases h

theorem mem_groupBy {g : PyVal × Df} {df : Df} {k : String} (h : g ∈ groupBy df k) :
    g.1 ∈ keysOf df k ∧ g.2 = df.filter (fun rec => getF rec k == g.1) := by
  unfold groupBy at h
  obtain ⟨v, hv, rfl⟩ := List.mem_map.mp h
  exact ⟨hv, rfl⟩

theorem filter_pair (df : Df) (p q : Record → Bool) :
    (df.filter p).filter q = df.filter (fun rec => p rec && q rec) := by
  rw [List.filter_filter]
  exact List.filter_congr (fun rec _ => Bool.and_comm (q rec) (p rec))

theorem numericCol_getF {df : Df} {k : String} (h : numericCol df k = true)
    {rec : Record} (hr : rec ∈ df) : ∃ q : ℚ, getF rec k = .num q := by
  have hall := List.all_eq_true.mp h rec hr
  unfold getF
  revert hall
  cases hf : getField rec k with
  | none => intro hall; simp at hall
  | some v =>
    cases v with
    | num q => intro _; exact ⟨q, rfl⟩
    | nan => intro hall; simp at hall
    | str s => intro hall; simp at hall

theorem ratsOf_ne_nil {xs : List PyVal} (h0 : xs ≠ [])
    (h : ∀ v ∈ xs, ∃ q : ℚ, v = .num q) : ratsOf xs ≠ [] := by
  cases xs with
  | nil => exact absurd rfl h0
  | cons v t =>
    obtain ⟨q, rfl⟩ := h v (List.mem_cons_self v t)
    simp [ratsOf]

theorem meanT_eq_arith {xs : List PyVal} (h : ratsOf xs ≠ []) :
    meanT xs = .num (arithMean (ratsOf xs)) := by
  unfold meanT arithMean
  simp only [List.isEmpty_iff]
  rw [if_neg h]

theorem isNan_meanT_false {xs : List PyVal} (h : ratsOf xs ≠ []) :
    isNan (meanT xs) = false := by
  rw [meanT_eq_arith h]
  rfl

theorem stdT_eq_sampleStd (f : ℚ → ℚ) (xs : List PyVal) :
    stdT f xs = sampleStd f (ratsOf xs) := rfl

theorem mulSeries_map {l : List (PyVal × Df)} {f : Df → PyVal} {e : ℚ} :
    mulSeries (l.map (fun cg => (cg.1, f cg.2))) e
      = l.map (fun cg => (cg.1, mulNum (f cg.2) e)) := by
  unfold mulSeries
  rw [List.map_map]
  rfl

theorem filter_ne_nil_of_mem_keysOf {df : Df} {k : String} {c : PyVal}
    (hc : c ∈ keysOf df k) : df.filter (fun rec => getF rec k == c) ≠ [] := by
  obtain ⟨-, rec, hrec, hg⟩ := mem_keysOf.mp hc
  intro hnil
  have hm : rec ∈ df.filter (fun rec => getF rec k == c) :=
    List.mem_filter.mpr ⟨hrec, by rw [hg]; exact beq_self_eq_true c⟩
  rw [hnil] at hm
  cases hm

theorem hasNans_groupMeans_false (colk : String) {df sub : Df} {ek : String}
    (hsub : ∀ rec ∈ sub, rec ∈ df) (hnum : numericCol df ek = true) :
    hasNans ((groupBy sub colk).map (fun cg => (cg.1, meanT (colVals cg.2 ek)))) = false := by
  rw [hasNans, List.any_eq_false]
  rintro p hp
  obtain ⟨cg, hcg, rfl⟩ := List.mem_map.mp hp
  obtain ⟨hk, hfil⟩ := mem_groupBy hcg
  have hne : cg.2 ≠ [] := by
    rw [hfil]
    exact filter_ne_nil_of_mem_keysOf hk
  have hvals : ∀ v ∈ colVals cg.2 ek, ∃ q : ℚ, v = .num q := by
    intro v hv
    obtain ⟨rec, hrec, rfl⟩ := List.mem_map.mp hv
    have hrd : rec ∈ df := by
      apply hsub
      rw [hfil] at hrec
      exact List.mem_of_mem_filter hrec
    obtain ⟨q, hq⟩ := numericCol_getF hnum hrd
    exact ⟨q, hq⟩
  have hcv : colVals cg.2 ek ≠ [] := by
    unfold colVals
    simp only [ne_eq, List.map_eq_nil_iff]
    exact hne
  rw [isNan_meanT_false (ratsOf_ne_nil hcv hvals)]
  exact Bool.false_ne_true

theorem rowAgg_no_err {cfg : Cfg} (hek : cfg.err_key = none)
    (hfn : cfg.compute_err_fn = none) (g : PyVal × Df) :
    rowAgg cfg g =
      (g.1,
       (groupBy g.2 cfg.col_key).map (fun cg => (cg.1, meanT (colVals cg.2 cfg.cell_key))),
       (groupBy g.2 cfg.col_key).map (fun cg =>
         (cg.1, mulNum (stdT cfg.sqrtF (colVals cg.2 cfg.cell_key)) cfg.error_scaling))) := by
  unfold rowAgg
  rw [hek, hfn]
  simp
  unfold mulSeries
  rw [List.map_map]
  rfl

theorem rowAgg_err_sel {cfg : Cfg} {ek : String} (hek : cfg.err_key = some ek)
    (g : PyVal × Df)
    (hno : hasNans ((groupBy g.2 cfg.col_key).map
      (fun cg => (cg.1, meanT (colVals cg.2 ek)))) = false) :
    rowAgg cfg g =
      (g.1,
       (groupBy g.2 cfg.col_key).map (fun cg => (cg.1, meanT (colVals cg.2 cfg.cell_key))),
       (groupBy g.2 cfg.col_key).map (fun cg => (cg.1, meanT (colVals cg.2 ek)))) := by
  unfold rowAgg
  rw [hek]
  simp [hno]

theorem rowAgg_err_nan {cfg : Cfg} {ek : String} (hek : cfg.err_key = some ek)
    (g : PyVal × Df)
    (hyes : hasNans ((groupBy g.2 cfg.col_key).map
      (fun cg => (cg.1, meanT (colVals cg.2 ek)))) = true) :
    rowAgg cfg g =
      (g.1,
       (groupBy g.2 cfg.col_key).map (fun cg => (cg.1, meanT (colVals cg.2 cfg.cell_key))),
       match cfg.compute_err_fn with
       | some f => f ((groupBy g.2 cfg.col_key).map (fun cg => (cg.1, colVals cg.2 cfg.cell_key)))
       | none =>
         mulSeries ((groupBy g.2 cfg.col_key).map
           (fun cg => (cg.1, stdT cfg.sqrtF (colVals cg.2 cfg.cell_key)))) cfg.error_scaling) := by
  unfold rowAgg
  rw [hek]
  simp [hyes]

/-! ## The claims -/

/-- C1: with a purely numeric value column and neither an error column
(`err_key`) nor a custom error function (`compute_err_fn`), the
aggregation of `plot_table` (source lines 106-122) gives every present
(row-group, column-group) pair the arithmetic mean of the matching
records' value field as the cell's central value, and the sample standard
deviation of those records multiplied by `error_scaling` as its
dispersion. -/
theorem C1_cell_mean_and_std (df : Df) (cfg : Cfg) (rgs : Rows)
    (hnum : numericCol df cfg.cell_key = true)
    (hek : cfg.err_key = none) (hfn : cfg.compute_err_fn = none)
    (hb : buildRows cfg df = some rgs)
    (r c : PyVal) (avg stdS : Series)
    (hmem : (r, avg, stdS) ∈ rgs)
    (hpair : matchingRecs df cfg r c ≠ [])
    (hcnan : isNan c = false) :
    lookupS avg c =
      some (.num (arithMean (ratsOf (colVals (matchingRecs df cfg r c) cfg.cell_key)))) ∧
    lookupS stdS c =
      some (mulNum
        (sampleStd cfg.sqrtF (ratsOf (colVals (matchingRecs df cfg r c) cfg.cell_key)))
        cfg.error_scaling) := by
  have hr := buildRows_eq_some hb
  subst hr
  obtain ⟨g, hg, hga⟩ := List.mem_map.mp hmem
  obtain ⟨hgk, hgdf⟩ := mem_groupBy hg
  rw [rowAgg_no_err hek hfn] at hga
  injection hga with h1 h23
  injection h23 with h2 h3
  subst h1
  subst h2
  subst h3
  obtain ⟨rec, hrecdf, hp⟩ :
      ∃ rec ∈ df,
        (getF rec cfg.row_key == g.1 && getF rec cfg.col_key == c) = true := by
    cases hM : matchingRecs df cfg g.1 c with
    | nil => exact absurd hM hpair
    | cons rec t =>
      have hrm : rec ∈ matchingRecs df cfg g.1 c := by
        rw [hM]
        exact List.mem_cons_self rec t
      obtain ⟨hmem2, hp⟩ := List.mem_filter.mp hrm
      exact ⟨rec, hmem2, hp⟩
  obtain ⟨hrow, hcol⟩ := Bool.and_eq_true .. |>.mp hp
  have hsubrec : rec ∈ g.2 := by
    rw [hgdf]
    exact List.mem_filter.mpr ⟨hrecdf, hrow⟩
  have hck : c ∈ keysOf g.2 cfg.col_key :=
    mem_keysOf.mpr ⟨hcnan, rec, hsubrec, beq_iff_eq.mp hcol⟩
  have hfilter : g.2.filter (fun rec => getF rec cfg.col_key == c)
      = matchingRecs df cfg g.1 c := by
    rw [hgdf, filter_pair]
    rfl
  have hvals : ∀ v ∈ colVals (matchingRecs df cfg g.1 c) cfg.cell_key,
      ∃ q : ℚ, v = .num q := by
    intro v hv
    obtain ⟨rec2, hrec2, rfl⟩ := List.mem_map.mp hv
    exact numericCol_getF hnum (List.mem_of_mem_filter hrec2)
  have hcv : colVals (matchingRecs df cfg g.1 c) cfg.cell_key ≠ [] := by
    unfold colVals
    simp only [ne_eq, List.map_eq_nil_iff]
    exact hpair
  have hA := lookupS_groupMap g.2 cfg.col_key
    (fun sub => meanT (colVals sub cfg.cell_key)) c hck
  have hS := lookupS_groupMap g.2 cfg.col_key
    (fun sub => mulNum (stdT cfg.sqrtF (colVals sub cfg.cell_key)) cfg.error_scaling) c hck
  rw [hfilter] at hA hS
  dsimp only at hA hS
  constructor
  · rw [hA, meanT_eq_arith (ratsOf_ne_nil hcv hvals)]
  · rw [hS, stdT_eq_sampleStd]

theorem pair_mem_keys {df : Df} {cfg : Cfg} {g : PyVal × Df} {c : PyVal}
    (hgdf : g.2 = df.filter (fun rec => getF rec cfg.row_key == g.1))
    (hpair : matchingRecs df cfg g.1 c ≠ [])
    (hcnan : isNan c = false) :
    c ∈ keysOf g.2 cfg.col_key ∧
    g.2.filter (fun rec => getF rec cfg.col_key == c) = matchingRecs df cfg g.1 c := by
  obtain ⟨rec, hrecdf, hp⟩ :
      ∃ rec ∈ df,
        (getF rec cfg.row_key == g.1 && getF rec cfg.col_key == c) = true := by
    cases hM : matchingRecs df cfg g.1 c with
    | nil => exact absurd hM hpair
    | cons rec t =>
      have hrm : rec ∈ matchingRecs df cfg g.1 c := by
        rw [hM]
        exact List.mem_cons_self rec t
      obtain ⟨hmem2, hp⟩ := List.mem_filter.mp hrm
      exact ⟨rec, hmem2, hp⟩
  obtain ⟨hrow, hcol⟩ := Bool.and_eq_true .. |>.mp hp
  have hsubrec : rec ∈ g.2 := by
    rw [hgdf]
    exact List.mem_filter.mpr ⟨hrecdf, hrow⟩
  refine ⟨mem_keysOf.mpr ⟨hcnan, rec, hsubrec, beq_iff_eq.mp hcol⟩, ?_⟩
  rw [hgdf, filter_pair]
  rfl

theorem matching_vals_num {df : Df} {cfg : Cfg} {r c : PyVal} {k : String}
    (hnum : numericCol df k = true) :
    ∀ v ∈ colVals (matchingRecs df cfg r c) k, ∃ q : ℚ, v = .num q := by
  intro v hv
  obtain ⟨rec2, hrec2, rfl⟩ := List.mem_map.mp hv
  exact numericCol_getF hnum (List.mem_of_mem_filter hrec2)

theorem matching_vals_ne_nil {df : Df} {cfg : Cfg} {r c : PyVal} {k : String}
    (hpair : matchingRecs df cfg r c ≠ []) :
    colVals (matchingRecs df cfg r c) k ≠ [] := by
  unfold colVals
  simp only [ne_eq, List.map_eq_nil_iff]
  exact hpair

/-- C6: when `err_key` names an error column without missing values, the
dispersion of every cell is the per-(row,col)-group mean of that column —
regardless of `compute_err_fn` and instead of the standard deviation
(source lines 112-120). -/
theorem C6_error_column_overrides (df : Df) (cfg : Cfg) (rgs : Rows) (ek : String)
    (hek : cfg.err_key = some ek)
    (hnum : numericCol df ek = true)
    (hb : buildRows cfg df = some rgs)
    (r c : PyVal) (avg stdS : Series)
    (hmem : (r, avg, stdS) ∈ rgs)
    (hpair : matchingRecs df cfg r c ≠ [])
    (hcnan : isNan c = false) :
    lookupS stdS c =
      some (.num (arithMean (ratsOf (colVals (matchingRecs df cfg r c) ek)))) := by
  have hr := buildRows_eq_some hb
  subst hr
  obtain ⟨g, hg, hga⟩ := List.mem_map.mp hmem
  obtain ⟨hgk, hgdf⟩ := mem_groupBy hg
  have hsub : ∀ rec ∈ g.2, rec ∈ df := by
    intro rec hrec
    rw [hgdf] at hrec
    exact List.mem_of_mem_filter hrec
  have hno := hasNans_groupMeans_false cfg.col_key hsub hnum
  rw [rowAgg_err_sel hek g hno] at hga
  injection hga with h1 h23
  injection h23 with h2 h3
  subst h1
  subst h2
  subst h3
  obtain ⟨hck, hfilter⟩ := pair_mem_keys hgdf hpair hcnan
  have hS := lookupS_groupMap g.2 cfg.col_key (fun sub => meanT (colVals sub ek)) c hck
  rw [hfilter] at hS
  dsimp only at hS
  rw [hS, meanT_eq_arith (ratsOf_ne_nil (matching_vals_ne_nil hpair) (matching_vals_num hnum))]

/-- C10 (amended): with an `err_key`, the dispersion source is decided per
row group, but the fallback triggers only when the per-column means of the
error column within the group contain a NaN (i.e. some (row,col) subgroup
has no numeric error entry at all, since the mean skips NaN); a NaN entry
in a subgroup that still has numeric entries does not defeat the
override.  When the fallback triggers, `compute_err_fn` is used if
supplied, else the standard deviation scaled by `error_scaling`. -/
theorem C10_errkey_fallback_per_group (df : Df) (cfg : Cfg) (rgs : Rows) (ek : String)
    (hek : cfg.err_key = some ek)
    (hb : buildRows cfg df = some rgs)
    (r : PyVal) (avg stdS : Series)
    (hmem : (r, avg, stdS) ∈ rgs) :
    (hasNans (errMeans df cfg ek r) = false → stdS = errMeans df cfg ek r) ∧
    (hasNans (errMeans df cfg ek r) = true →
      stdS =
        match cfg.compute_err_fn with
        | some f => f ((groupBy (rowRecs df cfg r) cfg.col_key).map
            (fun cg => (cg.1, colVals cg.2 cfg.cell_key)))
        | none =>
          mulSeries ((groupBy (rowRecs df cfg r) cfg.col_key).map
            (fun cg => (cg.1, stdT cfg.sqrtF (colVals cg.2 cfg.cell_key))))
            cfg.error_scaling) := by
  have hr := buildRows_eq_some hb
  subst hr
  obtain ⟨g, hg, hga⟩ := List.mem_map.mp hmem
  obtain ⟨hgk, hgdf⟩ := mem_groupBy hg
  cases hN : hasNans ((groupBy g.2 cfg.col_key).map
      (fun cg => (cg.1, meanT (colVals cg.2 ek)))) with
  | false =>
    rw [rowAgg_err_sel hek g hN] at hga
    injection hga with h1 h23
    injection h23 with h2 h3
    subst h1
    subst h2
    subst h3
    have hRR : rowRecs df cfg g.1 = g.2 := by
      unfold rowRecs
      exact hgdf.symm
    have hEM : errMeans df cfg ek g.1
        = (groupBy g.2 cfg.col_key).map (fun cg => (cg.1, meanT (colVals cg.2 ek))) := by
      unfold errMeans
      rw [hRR]
    constructor
    · intro _
      rw [hEM]
    · intro h
      rw [hEM, hN] at h
      cases h
  | true =>
    rw [rowAgg_err_nan hek g hN] at hga
    injection hga with h1 h23
    injection h23 with h2 h3
    subst h1
    subst h2
    subst h3
    have hRR : rowRecs df cfg g.1 = g.2 := by
      unfold rowRecs
      exact hgdf.symm
    have hEM : errMeans df cfg ek g.1
        = (groupBy g.2 cfg.col_key).map (fun cg => (cg.1, meanT (colVals cg.2 ek))) := by
      unfold errMeans
      rw [hRR]
    constructor
    · intro h
      rw [hEM, hN] at h
      cases h
    · intro _
      rw [hRR]

theorem scaleCellT_one (v : PyVal) : scaleCellT 1 v = v := by
  cases v <;> simp [scaleCellT]

theorem scaleRecT_one (k : String) (rec : Record) : scaleRecT k 1 rec = rec := by
  unfold scaleRecT
  induction rec with
  | nil => rfl
  | cons p t ih =>
    simp only [List.map_cons, ih, scaleCellT_one]
    by_cases hpk : (p.1 == k) = true
    · simp [hpk]
    · simp [hpk]

theorem all_recScaleOk_of_numOrNan {df : Df} {k : String}
    (h : numOrNanCol df k = true) : df.all (recScaleOk k) = true := by
  unfold numOrNanCol at h
  rw [List.all_eq_true] at h ⊢
  intro rec hr
  have hrec := h rec hr
  unfold recScaleOk
  revert hrec
  cases hf : getField rec k with
  | none => intro hh; simp [hf] at hh
  | some v =>
    cases v with
    | num q => intro _; rfl
    | nan => intro _; rfl
    | str s => intro hh; simp [hf] at hh

theorem scaleCol_one {df : Df} {k : String} (h : numOrNanCol df k = true) :
    scaleCol df k 1 = some df := by
  unfold scaleCol
  rw [if_pos (all_recScaleOk_of_numOrNan h)]
  congr 1
  have hm : df.map (scaleRecT k 1) = df.map id :=
    List.map_congr_left (fun rec _ => scaleRecT_one k rec)
  rw [hm, List.map_id]

theorem scaleCol_eq_some {df df1 : Df} {k : String} {c : ℚ}
    (h : scaleCol df k c = some df1) : df1 = df.map (scaleRecT k c) := by
  unfold scaleCol at h
  split at h
  · exact (Option.some.injEq _ _ ▸ h).symm
  · cases h

theorem find?_scaleRecT_ne {k kq : String} {c : ℚ} (rec : Record)
    (h : (kq == k) = false) :
    (scaleRecT k c rec).find? (fun p => p.1 == kq) = rec.find? (fun p => p.1 == kq) := by
  induction rec with
  | nil => rfl
  | cons p t ih =>
    unfold scaleRecT at ih ⊢
    simp only [List.map_cons]
    by_cases hpk : (p.1 == k) = true
    · have hpq : (p.1 == kq) = false := by
        rw [beq_iff_eq] at hpk
        subst hpk
        rw [beq_eq_false_iff_ne] at h ⊢
        exact fun hh => h hh.symm
      rw [if_pos hpk]
      simp only [List.find?_cons, hpq]
      exact ih
    · rw [if_neg hpk]
      simp only [List.find?_cons]
      cases hpq : (p.1 == kq) with
      | true => rfl
      | false => exact ih

theorem getField_scaleRecT_ne {k kq : String} {c : ℚ} {rec : Record}
    (h : kq ≠ k) : getField (scaleRecT k c rec) kq = getField rec kq := by
  unfold getField
  rw [find?_scaleRecT_ne rec (beq_eq_false_iff_ne.mpr h)]

theorem getField_scaleRecT_eq {k : String} {c : ℚ} {rec : Record} :
    getField (scaleRecT k c rec) k = (getField rec k).map (scaleCellT c) := by
  induction rec with
  | nil => rfl
  | cons p t ih =>
    unfold scaleRecT getField at ih ⊢
    simp only [List.map_cons, List.find?_cons]
    by_cases hpk : (p.1 == k) = true
    · rw [if_pos hpk]
      simp only [hpk]
      rfl
    · rw [if_neg hpk]
      have hpk2 : (p.1 == k) = false := by
        cases hb : (p.1 == k) with
        | true => exact absurd hb hpk
        | false => rfl
      simp only [hpk2]
      exact ih

/-- C3 (amended): the only mutation `plot_table` performs on the caller's
dataframe is the in-place scaling of the value column on line 95: after a
successful call the caller's frame has every `cell_key` cell multiplied by
`value_scaling` (NaN staying NaN) and every other field unchanged. -/
theorem C3_mutates_only_value_column (df : Df) (cfg : Cfg) (df1 : Df)
    (out : String) (ds : List String)
    (h : plot_table df cfg = some (df1, out, ds)) :
    List.Forall₂ (fun rec rec1 =>
      (∀ kq, kq ≠ cfg.cell_key → getField rec1 kq = getField rec kq) ∧
      (∀ q : ℚ, getField rec cfg.cell_key = some (.num q) →
        getField rec1 cfg.cell_key = some (.num (q * cfg.value_scaling))) ∧
      (getField rec cfg.cell_key = some .nan →
        getField rec1 cfg.cell_key = some .nan)) df df1 := by
  have hsc : ∃ dfS, scaleCol df cfg.cell_key cfg.value_scaling = some dfS ∧ df1 = dfS := by
    unfold plot_table at h
    cases hs : scaleCol df cfg.cell_key cfg.value_scaling with
    | none => rw [hs] at h; cases h
    | some dfS =>
      rw [hs] at h
      refine ⟨dfS, rfl, ?_⟩
      cases hbr : buildRows cfg (replaceAll (replaceAll dfS "missing"
          (.num cfg.missing_fill_value)) "error" (.num cfg.error_fill_value)) with
      | none => simp [Option.bind, hbr] at h
      | some rows =>
        simp [Option.bind, hbr] at h
        exact h.1.symm
  obtain ⟨dfS, hs, rfl⟩ := hsc
  rw [scaleCol_eq_some hs]
  rw [List.forall₂_map_right_iff]
  rw [List.forall₂_same]
  intro rec hrec
  refine ⟨fun kq hkq => getField_scaleRecT_ne hkq, fun q hq => ?_, fun hq => ?_⟩
  · rw [getField_scaleRecT_eq, hq]
    rfl
  · rw [getField_scaleRecT_eq, hq]
    rfl

/-- C2 (amended): re-rendering is only idempotent when the in-place
scaling of line 95 is value-preserving: with `value_scaling = 1` and a
numeric value column, calling `plot_table` a second time on the frame the
first call left behind returns the identical result. -/
theorem C2_rerender_identical_when_unscaled (df : Df) (cfg : Cfg)
    (hvs : cfg.value_scaling = 1)
    (hnum : numOrNanCol df cfg.cell_key = true) :
    (plot_table df cfg).bind (fun x => plot_table x.1 cfg) = plot_table df cfg := by
  have hs : scaleCol df cfg.cell_key cfg.value_scaling = some df := by
    rw [hvs]
    exact scaleCol_one hnum
  cases hbr : buildRows cfg (replaceAll (replaceAll df "missing"
      (.num cfg.missing_fill_value)) "error" (.num cfg.error_fill_value)) with
  | none => simp [plot_table, hs, hbr]
  | some rows => simp [plot_table, hs, hbr]

/-- C7: an `"hline"` entry in `row_order` emits a `\hline` section-break
line in place of a data row, and the rows after it are rendered from a row
counter reset to 0, independently of everything before the break — the
alternating-color parity restarts per section (source lines 141-144,
212-215). -/
theorem C7_hline_breaks_and_resets_parity (cfg : Cfg) (rows : Rows)
    (pre post : List String) (n : Nat) :
    (renderRowsAux cfg rows (pre ++ "hline" :: post) n).1 =
      (renderRowsAux cfg rows pre n).1 ++
        "\\hline" :: (renderRowsAux cfg rows post 0).1 := by
  induction pre generalizing n with
  | nil =>
    simp [renderRowsAux]
  | cons a t ih =>
    by_cases ha : (a == "hline") = true
    · simp [renderRowsAux, ha, ih]
    · cases hfa : findRow rows a with
      | none => simp [renderRowsAux, ha, hfa, ih]
      | some rs => simp [renderRowsAux, ha, hfa, ih]

/-- C8: a `row_order` key with no aggregated data renders as a row of
blank data cells (the label cell kept), prints a `Could not find`
diagnostic, and rendering continues with the remaining keys and an
unchanged row counter — the condition is handled, never raised (source
lines 154-158). -/
theorem C8_missing_row_key_blank_row (cfg : Cfg) (rows : Rows)
    (pre post : List String) (row_k : String) (n : Nat)
    (hne : row_k ≠ "hline") (hmiss : findRow rows row_k = none) :
    renderRowsAux cfg rows (pre ++ row_k :: post) n =
      ((renderRowsAux cfg rows pre n).1 ++
        String.intercalate " & "
          ((if cfg.show_row_labels then [labelCell cfg row_k] else []) ++
            cfg.col_order.map (fun _ => "")) ::
        (renderRowsAux cfg rows post (renderRowsAux cfg rows pre n).2.2).1,
       (renderRowsAux cfg rows pre n).2.1 ++
        ("Could not find  " ++ row_k) ::
        (renderRowsAux cfg rows post (renderRowsAux cfg rows pre n).2.2).2.1,
       (renderRowsAux cfg rows post (renderRowsAux cfg rows pre n).2.2).2.2) := by
  have hne2 : (row_k == "hline") = false := beq_eq_false_iff_ne.mpr hne
  induction pre generalizing n with
  | nil =>
    simp [renderRowsAux, hne2, hmiss]
  | cons a t ih =>
    by_cases ha : (a == "hline") = true
    · simp [renderRowsAux, ha, ih]
    · cases hfa : findRow rows a with
      | none => simp [renderRowsAux, ha, hfa, ih]
      | some rs => simp [renderRowsAux, ha, hfa, ih]

/-- C9: the choice between the row separator `" \\\\\n"` and a bare
newline after each rendered row line is made by testing the line's text
for the substring `"hline"` (source lines 257-268): with `add_botrule`
every line is followed by its test-chosen separator; without it the last
line is left unseparated and all earlier lines get the test-chosen
separator.  A data row whose text happens to contain `"hline"` is thus
joined like a section break. -/
theorem C9_separator_by_substring_test (ls : List String) (l : String) :
    joinRowLines true ls =
      (ls.map (fun x =>
        x ++ (if containsSub "hline" x then "\n" else " \\\\\n"))).foldr
        (fun a b => a ++ b) "" ∧
    joinRowLines false (ls ++ [l]) =
      (ls.map (fun x =>
        x ++ (if containsSub "hline" x then "\n" else " \\\\\n"))).foldr
        (fun a b => a ++ b) "" ++ l := by
  constructor
  · induction ls with
    | nil => rfl
    | cons a t ih =>
      cases t with
      | nil => simp [joinRowLines, String.append_empty]
      | cons b t2 =>
        rw [List.map_cons, List.foldr_cons, ← ih]
        rw [joinRowLines]
  · induction ls with
    | nil =>
      simp only [List.nil_append, List.map_nil, List.foldr_nil]
      rw [joinRowLines, String.empty_append]
      simp
    | cons a t ih =>
      cases t with
      | nil =>
        simp only [List.nil_append, List.singleton_append, List.map_cons, List.map_nil,
          List.foldr_cons, List.foldr_nil]
        rw [joinRowLines, joinRowLines, String.append_empty]
        simp
      | cons b t2 =>
        rw [List.cons_append, List.cons_append, List.map_cons, List.foldr_cons]
        rw [joinRowLines]
        rw [List.cons_append] at ih
        rw [ih]
        simp [String.append_assoc]

unseal Rat.add Rat.mul Rat.sub Rat.inv in
/-- Witness for C1: two records in group (A, X) with values 1 and 3, mean
2 and sample standard deviation 2 (under the identity square root, since
the variance is 2 — here ratified through `sqrtF`). -/
theorem C1_cell_mean_and_std_witness :
    numericCol dfC1w cfgC1w.cell_key = true ∧
    buildRows cfgC1w dfC1w = some rgsC1w ∧
    (lookupS [(.str "X", .num 2)] (.str "X") =
      some (.num (arithMean (ratsOf (colVals
        (matchingRecs dfC1w cfgC1w (.str "A") (.str "X")) cfgC1w.cell_key)))) ∧
     lookupS [(.str "X", .num 2)] (.str "X") =
      some (mulNum (sampleStd cfgC1w.sqrtF (ratsOf (colVals
        (matchingRecs dfC1w cfgC1w (.str "A") (.str "X")) cfgC1w.cell_key)))
        cfgC1w.error_scaling)) :=
  ⟨by decide, by decide,
    C1_cell_mean_and_std dfC1w cfgC1w rgsC1w (by decide) rfl rfl (by decide)
      (.str "A") (.str "X") [(.str "X", .num 2)] [(.str "X", .num 2)]
      (by decide) (by decide) (by decide)⟩

unseal Rat.add Rat.mul Rat.sub Rat.inv in
/-- Counterexample to C2 as stated: with `value_scaling = 2`, the second
call on the same (mutated-in-place) dataframe renders ` 4.00 ` where the
first rendered ` 2.00 `, so the two outputs are not byte-identical. -/
theorem C2_counterexample :
    ((plot_table dfC2x cfgC2x).bind (fun x =>
      (plot_table x.1 cfgC2x).map (fun y => x.2.1 == y.2.1))) = some false := by
  decide

/-- Witness for the amended C2 at a concrete dataset with
`value_scaling = 1`. -/
theorem C2_rerender_identical_witness :
    cfgC2w.value_scaling = 1 ∧
    numOrNanCol dfC2w cfgC2w.cell_key = true ∧
    (plot_table dfC2w cfgC2w).bind (fun x => plot_table x.1 cfgC2w)
      = plot_table dfC2w cfgC2w :=
  ⟨rfl, by decide, C2_rerender_identical_when_unscaled dfC2w cfgC2w rfl (by decide)⟩

unseal Rat.add Rat.mul Rat.sub Rat.inv in
/-- Counterexample to C3 as stated: with `value_scaling = 2` the caller's
dataframe comes back with its value cell doubled — the input frame was
mutated. -/
theorem C3_counterexample :
    (plot_table dfC3x cfgC3x).map (fun x => x.1) = some dfC3x1 ∧
    ¬ (plot_table dfC3x cfgC3x).map (fun x => x.1) = some dfC3x := by
  constructor
  · decide
  · decide

unseal Rat.add Rat.mul Rat.sub Rat.inv in
/-- Witness for the amended C3 at the same concrete input. -/
theorem C3_mutates_only_value_column_witness :
    plot_table dfC3x cfgC3x = some (dfC3x1, outC3x, []) ∧
    List.Forall₂ (fun rec rec1 =>
      (∀ kq, kq ≠ cfgC3x.cell_key → getField rec1 kq = getField rec kq) ∧
      (∀ q : ℚ, getField rec cfgC3x.cell_key = some (.num q) →
        getField rec1 cfgC3x.cell_key = some (.num (q * cfgC3x.value_scaling))) ∧
      (getField rec cfgC3x.cell_key = some .nan →
        getField rec1 cfgC3x.cell_key = some .nan)) dfC3x dfC3x1 :=
  ⟨by decide,
    C3_mutates_only_value_column dfC3x cfgC3x dfC3x1 outC3x [] (by decide)⟩

/-- C4: `plot_table` cannot render the `"missing"` sentinel at all — the
dataset with the sentinel string in the value column makes line 95
(`df[cell_key] = df[cell_key] * value_scaling`, with `value_scaling` a
float) raise `TypeError` before the sentinel replacement of line 103 ever
runs, so the `"-"` cells of lines 192-195 are unreachable.  The embedding
evaluates the call to the exception value at the failing input. -/
theorem C4_sentinel_missing_crashes :
    plot_table dfC4w cfgC4w = none := by
  decide

/-- C5: the `"error"` sentinel is likewise unreachable: the sentinel
string in the value column makes line 95 raise `TypeError` before the
replacement of line 104 and the `"E"` cells of lines 196-197 can run. -/
theorem C5_sentinel_error_crashes :
    plot_table dfC5w cfgC5w = none := by
  decide

unseal Rat.add Rat.mul Rat.sub Rat.inv in
/-- Witness for C6: error column `e` with values 5 and 7; the dispersion
of cell (A, X) is their mean 6, even though a `compute_err_fn` returning
99 is supplied. -/
theorem C6_error_column_overrides_witness :
    cfgC6w.err_key = some "e" ∧
    numericCol dfC6w "e" = true ∧
    buildRows cfgC6w dfC6w = some rgsC6w ∧
    lookupS [(.str "X", .num 6)] (.str "X") =
      some (.num (arithMean (ratsOf (colVals
        (matchingRecs dfC6w cfgC6w (.str "A") (.str "X")) "e")))) :=
  ⟨rfl, by decide, by decide,
    C6_error_column_overrides dfC6w cfgC6w rgsC6w "e" rfl (by decide) (by decide)
      (.str "A") (.str "X") [(.str "X", .num 2)] [(.str "X", .num 6)]
      (by decide) (by decide) (by decide)⟩

/-- Witness for C8: row key `B` is declared but has no aggregated data;
the rendered row is the bold label followed by two blank cells, and the
diagnostic is printed. -/
theorem C8_missing_row_key_witness :
    ("B" ≠ "hline") ∧ findRow [] "B" = none ∧
    renderRowsAux cfgC8w [] ([] ++ "B" :: []) 0 =
      ((renderRowsAux cfgC8w [] [] 0).1 ++
        String.intercalate " & "
          ((if cfgC8w.show_row_labels then [labelCell cfgC8w "B"] else []) ++
            cfgC8w.col_order.map (fun _ => "")) ::
        (renderRowsAux cfgC8w [] [] (renderRowsAux cfgC8w [] [] 0).2.2).1,
       (renderRowsAux cfgC8w [] [] 0).2.1 ++
        ("Could not find  " ++ "B") ::
        (renderRowsAux cfgC8w [] [] (renderRowsAux cfgC8w [] [] 0).2.2).2.1,
       (renderRowsAux cfgC8w [] [] (renderRowsAux cfgC8w [] [] 0).2.2).2.2) :=
  ⟨by decide, rfl,
    C8_missing_row_key_blank_row cfgC8w [] [] [] "B" 0 (by decide) rfl⟩

unseal Rat.add Rat.mul Rat.sub Rat.inv in
/-- Counterexample to C10 as stated: the error column of row group A holds
a NaN (second record), a `compute_err_fn` returning 42 is supplied, yet
the dispersion of cell (A, X) is 1 — the skipna mean of the error column —
not the 42 the claimed fallback would give. -/
theorem C10_counterexample :
    dfC10x.map (fun rec => getF rec "e") = [.num 1, .nan] ∧
    buildRows cfgC10x dfC10x =
      some [(.str "A", [(.str "X", .num 2)], [(.str "X", .num 1)])] ∧
    ¬ buildRows cfgC10x dfC10x =
      some [(.str "A", [(.str "X", .num 2)], [(.str "X", .num 42)])] := by
  refine ⟨by decide, by decide, by decide⟩

unseal Rat.add Rat.mul Rat.sub Rat.inv in
/-- Witness for the amended C10: when the (A, X) subgroup's error entries
are all NaN, the per-column error mean has a NaN and the dispersion falls
back to the scaled standard deviation (no `compute_err_fn` supplied). -/
theorem C10_errkey_fallback_witness :
    buildRows cfgC10w dfC10w = some rgsC10w ∧
    hasNans (errMeans dfC10w cfgC10w "e" (.str "A")) = true ∧
    [(.str "X", .num 2)] =
      mulSeries ((groupBy (rowRecs dfC10w cfgC10w (.str "A")) cfgC10w.col_key).map
        (fun cg => (cg.1, stdT cfgC10w.sqrtF (colVals cg.2 cfgC10w.cell_key))))
        cfgC10w.error_scaling :=
  ⟨by decide, by decide,
    (C10_errkey_fallback_per_group dfC10w cfgC10w rgsC10w "e" rfl (by decide)
      (.str "A") [(.str "X", .num 2)] [(.str "X", .num 2)] (by decide)).2 (by decide)⟩

end AutoTable
